import Mathlib

/-
Shallow embedding of the playback controller in src/app/index.tsx.

The component state (sound, isPlaying, isSoundLoaded, currentTrackIndex,
songs) is modelled as a record.  Asynchronous engine calls are modelled as
events: a call to Audio.Sound.createAsync registers a pending load whose
resolution (success or rejection) is a later event, so completions of
overlapping loads can be processed in any order.  React render closures are
modelled by capturing the relevant state fields at the moment a handler is
invoked and passing the captured values to the handler bodies, exactly as the
arrow functions in the component close over the state of the render that
created them.  The useEffect with dependency [currentTrackIndex] is modelled
by a pendingEffect flag: setCurrentTrackIndex with a value different from the
current one (Object.is comparison) schedules the effect, and a separate event
fires it (cleanup of the previous effect run first, then loadTrack of the
current index).  JavaScript number semantics of the index arithmetic are kept:
x % 0 is NaN and % is the truncated remainder, so JSNum is an integer or NaN.
The audio engine is modelled by a set of handle ids with a loaded flag and
logs of load / unload / play / pause / stop calls; transport calls succeed
exactly when the handle is still loaded (expo-av rejects them on an unloaded
sound, and the component catches the rejection).
-/

namespace MusicApp

/-- A row of the songs table (id, title, uri, image). -/
structure Song where
  id : Nat
  title : String
  uri : String
  image : Option String
  deriving DecidableEq, Repr

/-- The five hardcoded songs inserted at startup, ids assigned by autoincrement. -/
def hardcodedSongs : List Song :=
  [ ⟨1, "Barro - Duki", "https://audio.jukehost.co.uk/SyEabX1oMUCZSBoR9FgGdL0hfQoPh0iG",
      some "https://i.scdn.co/image/ab67616d0000b273c43ff46b46af2ee509267b63"⟩,
    ⟨2, "Enganchados #20 - DJ Sol", "https://audio.jukehost.co.uk/bJEkbddNGcu0yPEQm3z2NdUuX3TKH3Q2",
      some "https://yt3.googleusercontent.com/Wb3Tv03dV9EtUMJj6I4yynWVyvX6TGb367TQUlSq33fOHxt0d84ItAvPN0FepmzFCxADPjasRSo=s900-c-k-c0x00ffffff-no-rj"⟩,
    ⟨3, "Hey Lil Mama - Eladio Carrion ", "https://audio.jukehost.co.uk/mG4ce1SARwwOBRxUa83lDbNKpH7ZtIi2",
      some "https://i.scdn.co/image/ab67616d0000b273ec105eaf625391e95540ba97"⟩,
    ⟨4, "Diabla - Kidd Keo", "https://audio.jukehost.co.uk/MuF9okvPZ8p5vEGof6XVqFwV5jyvnBq2",
      some "https://images.genius.com/df9ae33e3d087adc9df125e65081edd8.1000x1000x1.png"⟩,
    ⟨5, "Secretos - C.R.O", "https://audio.jukehost.co.uk/2hDeS6FdQHl6Fm5vhXfLpfi5VoVWte9X",
      some "https://i.scdn.co/image/ab67616d0000b273717a4d2b63685f7b2a3d1b9c"⟩ ]

/-- A JavaScript number as used for currentTrackIndex: an integer or NaN. -/
inductive JSNum where
  | num : Int → JSNum
  | nan : JSNum
  deriving DecidableEq, Repr

/-- JavaScript addition on index values: NaN is absorbing. -/
def jsAdd : JSNum → JSNum → JSNum
  | .num a, .num b => .num (a + b)
  | _, _ => .nan

/-- JavaScript remainder: x % 0 is NaN, otherwise the truncated remainder
(sign of the dividend), and NaN is absorbing. -/
def jsMod : JSNum → JSNum → JSNum
  | .num a, .num b => if b = 0 then .nan else .num (Int.tmod a b)
  | _, _ => .nan

/-- The audio engine (expo-av) viewed through the calls the component makes.
Handles are numbered in creation order; loadedHandles are the sounds that are
currently loaded; handleIdx records which track index each handle was created
for; the remaining fields log every engine call in order. -/
structure Engine where
  fresh : Nat
  loadedHandles : List Nat
  handleIdx : List (Nat × JSNum)
  loadEvents : List JSNum
  unloadEvents : List Nat
  playEvents : List Nat
  pauseEvents : List Nat
  stopEvents : List Nat
  deriving DecidableEq, Repr

/-- sound.unloadAsync(): resolves also when the sound is already unloaded. -/
def Engine.unload (e : Engine) (h : Nat) : Engine :=
  { e with loadedHandles := e.loadedHandles.erase h,
           unloadEvents := e.unloadEvents ++ [h] }

/-- The state fields a render closure captures for playPauseTrack / stopTrack. -/
structure Closure where
  sound : Option Nat
  isPlaying : Bool
  isSoundLoaded : Bool
  deriving DecidableEq, Repr

/-- An in-flight Audio.Sound.createAsync call: the track index it was issued
for and, when the load was initiated by nextTrack or previousTrack, the
closure with which playPauseTrack() runs after the awaited loadTrack returns. -/
structure PendingLoad where
  idx : JSNum
  autoplay : Option Closure
  deriving DecidableEq, Repr

/-- The component state plus the modelled asynchronous machinery:
cleanupSound is the sound captured by the currently installed effect cleanup,
pendingEffect records a scheduled run of the [currentTrackIndex] effect, and
pendingLoads are the createAsync calls that have not resolved yet. -/
structure AppState where
  sound : Option Nat
  isPlaying : Bool
  isSoundLoaded : Bool
  currentTrackIndex : JSNum
  songs : List Song
  cleanupSound : Option Nat
  pendingEffect : Bool
  pendingLoads : List PendingLoad
  engine : Engine
  deriving DecidableEq, Repr

/-- songs[index] in JavaScript: defined only for an integer index inside
[0, length), undefined (none) for NaN, negative or too large indices. -/
def songAt (songs : List Song) : JSNum → Option Song
  | .num i => if 0 ≤ i then songs.get? i.toNat else none
  | .nan => none

/-- await sound.unloadAsync() for the closure-captured sound, when present. -/
def unloadCaptured (s : AppState) (c : Option Nat) : AppState :=
  match c with
  | some h => { s with engine := s.engine.unload h }
  | none => s

/-- loadTrack(index): first unloads the closure-captured sound, then reads
songs[index].uri.  If the entry is undefined the synchronous access throws and
the catch only logs: no engine call is made (second component false).
Otherwise Audio.Sound.createAsync is initiated and registered as a pending
load; setSound / setIsSoundLoaded happen only at its resolution. -/
def loadTrackInit (s : AppState) (capturedSound : Option Nat) (capturedSongs : List Song)
    (index : JSNum) (autoplay : Option Closure) : AppState × Bool :=
  let s1 := unloadCaptured s capturedSound
  match songAt capturedSongs index with
  | some _ =>
      ({ s1 with
          engine := { s1.engine with loadEvents := s1.engine.loadEvents ++ [index] },
          pendingLoads := s1.pendingLoads ++ [⟨index, autoplay⟩] }, true)
  | none => (s1, false)

/-- playPauseTrack with the render-closure values c: warns and returns when
the captured sound is null or the captured loaded flag is false; otherwise
pauses when the captured isPlaying is true, plays when it is false, and on
resolution runs setIsPlaying(!isPlaying) with the captured flag.  The engine
rejects the transport call when the handle is no longer loaded; the rejection
is caught, so no flag changes on that path. -/
def playPauseCore (s : AppState) (c : Closure) : AppState :=
  match c.sound with
  | none => s
  | some h =>
    if c.isSoundLoaded then
      if c.isPlaying then
        { s with
            engine := { s.engine with pauseEvents := s.engine.pauseEvents ++ [h] },
            isPlaying := if h ∈ s.engine.loadedHandles then false else s.isPlaying }
      else
        { s with
            engine := { s.engine with playEvents := s.engine.playEvents ++ [h] },
            isPlaying := if h ∈ s.engine.loadedHandles then true else s.isPlaying }
    else s

/-- stopTrack with the render-closure values c: when a sound is held and the
loaded flag is set, calls sound.stopAsync() and on resolution
setIsPlaying(false); a rejection is caught and changes nothing; otherwise it
only warns. -/
def stopCore (s : AppState) (c : Closure) : AppState :=
  match c.sound with
  | none => s
  | some h =>
    if c.isSoundLoaded then
      { s with
          engine := { s.engine with stopEvents := s.engine.stopEvents ++ [h] },
          isPlaying := if h ∈ s.engine.loadedHandles then false else s.isPlaying }
    else s

/-- Resolution of the k-th in-flight createAsync call.  On success a fresh
loaded sound is produced and setSound(newSound); setIsSoundLoaded(true) run,
with no staleness check of any kind.  On failure the catch only logs.  When
the load was initiated by nextTrack / previousTrack, playPauseTrack() then
runs with the closure captured at the press (the press awaited loadTrack). -/
def completeLoad (s : AppState) (k : Nat) (success : Bool) : AppState :=
  match s.pendingLoads.get? k with
  | none => s
  | some p =>
    let s0 := { s with pendingLoads := s.pendingLoads.eraseIdx k }
    let s1 :=
      if success then
        { s0 with
            sound := some s0.engine.fresh,
            isSoundLoaded := true,
            engine := { s0.engine with
                          fresh := s0.engine.fresh + 1,
                          loadedHandles := s0.engine.fresh :: s0.engine.loadedHandles,
                          handleIdx := s0.engine.handleIdx ++ [(s0.engine.fresh, p.idx)] } }
      else s0
    match p.autoplay with
    | some c => playPauseCore s1 c
    | none => s1

/-- setCurrentTrackIndex(v): React bails out when the new value equals the
current one under Object.is, and the [currentTrackIndex] effect re-runs only
when the dependency changed, so an effect run is scheduled exactly when the
value differs. -/
def setCurrentTrackIndex (s : AppState) (v : JSNum) : AppState :=
  if v = s.currentTrackIndex then s
  else { s with currentTrackIndex := v, pendingEffect := true }

/-- The playPause button press: playPauseTrack with the current render values. -/
def pressPlayPause (s : AppState) : AppState :=
  playPauseCore s ⟨s.sound, s.isPlaying, s.isSoundLoaded⟩

/-- The stop button press: stopTrack with the current render values. -/
def pressStop (s : AppState) : AppState :=
  stopCore s ⟨s.sound, s.isPlaying, s.isSoundLoaded⟩

/-- nextTrack: nextIndex = (currentTrackIndex + 1) % songs.length, then
setCurrentTrackIndex(nextIndex), await loadTrack(nextIndex), and
playPauseTrack() with the closure of the render that created nextTrack.
When loadTrack failed synchronously (songs[nextIndex] undefined) the awaited
call still resolves and playPauseTrack runs at once; when an engine load was
initiated, playPauseTrack runs at its resolution (the autoplay field). -/
def pressNext (s : AppState) : AppState :=
  let c : Closure := ⟨s.sound, s.isPlaying, s.isSoundLoaded⟩
  let nextIndex := jsMod (jsAdd s.currentTrackIndex (.num 1)) (.num s.songs.length)
  let s1 := setCurrentTrackIndex s nextIndex
  let r := loadTrackInit s1 s.sound s.songs nextIndex (some c)
  if r.2 then r.1 else playPauseCore r.1 c

/-- previousTrack: prevIndex = (currentTrackIndex - 1 + songs.length) %
songs.length, then the same sequence as nextTrack. -/
def pressPrevious (s : AppState) : AppState :=
  let c : Closure := ⟨s.sound, s.isPlaying, s.isSoundLoaded⟩
  let prevIndex :=
    jsMod (jsAdd (jsAdd s.currentTrackIndex (.num (-1))) (.num s.songs.length))
      (.num s.songs.length)
  let s1 := setCurrentTrackIndex s prevIndex
  let r := loadTrackInit s1 s.sound s.songs prevIndex (some c)
  if r.2 then r.1 else playPauseCore r.1 c

/-- Tapping a row of the song list: onPress=() => setCurrentTrackIndex(index). -/
def selectSong (s : AppState) (i : Nat) : AppState :=
  setCurrentTrackIndex s (.num i)

/-- The body of a run of the [currentTrackIndex] effect: the cleanup of the
previous run unloads the sound that run captured, then loadTrack
(currentTrackIndex) runs with the current render values (no autoplay), and
the new cleanup captures the current sound. -/
def effectBody (s : AppState) : AppState :=
  let s1 := unloadCaptured { s with pendingEffect := false } s.cleanupSound
  let r := loadTrackInit s1 s1.sound s1.songs s1.currentTrackIndex none
  { r.1 with cleanupSound := s.sound }

/-- A scheduled run of the [currentTrackIndex] effect fires. -/
def effectFire (s : AppState) : AppState :=
  if s.pendingEffect then effectBody s else s

/-- The SELECT * callback of fetchSongs delivering the table rows; fetchSongs
runs once, after insertSongs, so it is modelled as filling an empty list. -/
def fetchComplete (s : AppState) (l : List Song) : AppState :=
  if s.songs = [] then { s with songs := l } else s

/-- The events the component can process: user presses, the effect firing,
the songs query callback, and resolutions of in-flight loads (out of order,
selected by position k). -/
inductive Ev where
  | fetchComplete (l : List Song)
  | pressPlayPause
  | pressStop
  | pressNext
  | pressPrevious
  | selectSong (i : Nat)
  | effectFire
  | loadSuccess (k : Nat)
  | loadFailure (k : Nat)
  deriving DecidableEq, Repr

/-- One step of the component: apply an event to the state. -/
def applyEv (e : Ev) (s : AppState) : AppState :=
  match e with
  | .fetchComplete l => fetchComplete s l
  | .pressPlayPause => pressPlayPause s
  | .pressStop => pressStop s
  | .pressNext => pressNext s
  | .pressPrevious => pressPrevious s
  | .selectSong i => selectSong s i
  | .effectFire => effectFire s
  | .loadSuccess k => completeLoad s k true
  | .loadFailure k => completeLoad s k false

/-- The engine before any call. -/
def initEngine : Engine := ⟨0, [], [], [], [], [], [], []⟩

/-- The component state right after mounting: useState initial values
(sound null, not playing, not loaded, index 0, songs empty) and the mount run
of the [currentTrackIndex] effect still scheduled. -/
def initState : AppState :=
  { sound := none, isPlaying := false, isSoundLoaded := false,
    currentTrackIndex := .num 0, songs := [],
    cleanupSound := none, pendingEffect := true,
    pendingLoads := [], engine := initEngine }

/-- Run a list of events from the mounted component. -/
def run (evs : List Ev) : AppState :=
  evs.foldl (fun s e => applyEv e s) initState

/-- The states the component can reach from mounting. -/
inductive Reachable : AppState → Prop where
  | refl : Reachable initState
  | tail {s : AppState} (e : Ev) : Reachable s → Reachable (applyEv e s)

/-- currentTrackIndex is an integer inside [0, songs.length). -/
def inRange (s : AppState) : Prop :=
  ∃ c : Int, s.currentTrackIndex = JSNum.num c ∧ 0 ≤ c ∧ c < (s.songs.length : Int)

/-- A sequence of transport-bar presses: true is Next, false is Previous. -/
def applyMoves (s : AppState) (ms : List Bool) : AppState :=
  ms.foldl (fun s m => if m then pressNext s else pressPrevious s) s

/-- A captured closure can only be at least as stale as the state: its loaded
flag and its held sound were the state values at capture time, and both state
fields only ever grow (false to true, none to some). -/
def ClosureOk (s : AppState) (c : Closure) : Prop :=
  (c.isSoundLoaded = true → s.isSoundLoaded = true) ∧
  (c.sound.isSome = true → s.sound.isSome = true)

/-- Engine bookkeeping: loaded handles are pairwise distinct and below the
fresh counter. -/
def EngineOk (e : Engine) : Prop :=
  (∀ h ∈ e.loadedHandles, h < e.fresh) ∧ e.loadedHandles.Nodup

/-- The inductive invariant of the component: the playing flag implies the
loaded flag and a held sound, a held sound implies the loaded flag, every
in-flight autoplay closure is consistent with the state, and the engine
bookkeeping is well formed. -/
def Inv (s : AppState) : Prop :=
  (s.isPlaying = true → s.isSoundLoaded = true ∧ s.sound.isSome = true) ∧
  (s.sound.isSome = true → s.isSoundLoaded = true) ∧
  (∀ p ∈ s.pendingLoads, ∀ c, p.autoplay = some c → ClosureOk s c) ∧
  EngineOk s.engine

/-- Trace for the stale-load race: after startup, select track 2 and let its
load finish, then select track 0 and, while its load is still in flight,
select track 1; the load of track 1 resolves first, then the load of track 0
resolves. -/
def traceC1 : List Ev :=
  [.effectFire, .fetchComplete hardcodedSongs, .selectSong 2, .effectFire, .loadSuccess 0,
   .selectSong 0, .effectFire, .selectSong 1, .effectFire, .loadSuccess 1, .loadSuccess 0]

/-- Trace for the autoplay toggle: after startup press Next and let both
resulting loads finish, press playPause so the player is playing, press Next
again and let the new load finish. -/
def traceC2 : List Ev :=
  [.effectFire, .fetchComplete hardcodedSongs, .pressNext, .effectFire, .loadSuccess 0,
   .loadSuccess 0, .pressPlayPause, .pressNext, .loadSuccess 0]

/-- Startup only: mount effect fires on the still empty list, then the songs
arrive. -/
def traceC3 : List Ev := [.effectFire, .fetchComplete hardcodedSongs]

/-- A trace reaching a playing state: press Next after startup, let both
loads finish, press playPause. -/
def traceC4 : List Ev :=
  [.effectFire, .fetchComplete hardcodedSongs, .pressNext, .effectFire, .loadSuccess 0,
   .loadSuccess 0, .pressPlayPause]

/-- Trace for the failed-load state: select track 1, let its load finish,
then select track 0 and let that load fail. -/
def traceC5 : List Ev :=
  [.effectFire, .fetchComplete hardcodedSongs, .selectSong 1, .effectFire, .loadSuccess 0,
   .selectSong 0, .effectFire, .loadFailure 0]

/-- The same trace stopped just before the failing resolution. -/
def traceC5pre : List Ev :=
  [.effectFire, .fetchComplete hardcodedSongs, .selectSong 1, .effectFire, .loadSuccess 0,
   .selectSong 0, .effectFire]

/-- Trace with two overlapping selection loads whose completions both
resolve: select track 1, then select track 2 before the first load resolves,
then let both loads finish. -/
def traceC6 : List Ev :=
  [.effectFire, .fetchComplete hardcodedSongs, .selectSong 1, .effectFire, .selectSong 2,
   .effectFire, .loadSuccess 0, .loadSuccess 0]

/-- A trace reaching a loaded state with a further selection already issued
but its effect not yet fired. -/
def traceC6w : List Ev :=
  [.effectFire, .fetchComplete hardcodedSongs, .selectSong 1, .effectFire, .loadSuccess 0,
   .selectSong 2]

/-- A trace reaching a playing state with the held handle loaded. -/
def traceC8 : List Ev :=
  [.effectFire, .fetchComplete hardcodedSongs, .pressNext, .effectFire, .loadSuccess 0,
   .loadSuccess 0, .pressPlayPause]

/-- A trace reaching a loaded state at track 1. -/
def traceC9 : List Ev :=
  [.effectFire, .fetchComplete hardcodedSongs, .selectSong 1, .effectFire, .loadSuccess 0]

/-- Trace reaching a state whose held sound has already been unloaded by a
later press while the loaded flag is still set: press Next, let the loads
finish, play, press Next again and stop before the new load resolves. -/
def traceC10 : List Ev :=
  [.effectFire, .fetchComplete hardcodedSongs, .pressNext, .effectFire, .loadSuccess 0,
   .loadSuccess 0, .pressPlayPause, .pressNext]

/-- Startup only, for the playlist-arrival claim: the mount effect fires on
the still empty list, then the songs arrive. -/
def traceC7 : List Ev := [.effectFire, .fetchComplete hardcodedSongs]

theorem unloadCaptured_sound (s : AppState) (c : Option Nat) :
    (unloadCaptured s c).sound = s.sound := by
  cases c <;> rfl

theorem unloadCaptured_isPlaying (s : AppState) (c : Option Nat) :
    (unloadCaptured s c).isPlaying = s.isPlaying := by
  cases c <;> rfl

theorem unloadCaptured_isSoundLoaded (s : AppState) (c : Option Nat) :
    (unloadCaptured s c).isSoundLoaded = s.isSoundLoaded := by
  cases c <;> rfl

theorem unloadCaptured_currentTrackIndex (s : AppState) (c : Option Nat) :
    (unloadCaptured s c).currentTrackIndex = s.currentTrackIndex := by
  cases c <;> rfl

theorem unloadCaptured_songs (s : AppState) (c : Option Nat) :
    (unloadCaptured s c).songs = s.songs := by
  cases c <;> rfl

theorem unloadCaptured_pendingLoads (s : AppState) (c : Option Nat) :
    (unloadCaptured s c).pendingLoads = s.pendingLoads := by
  cases c <;> rfl

theorem unloadCaptured_fresh (s : AppState) (c : Option Nat) :
    (unloadCaptured s c).engine.fresh = s.engine.fresh := by
  cases c <;> rfl

theorem unloadCaptured_loadedHandles_sub (s : AppState) (c : Option Nat) {a : Nat}
    (h : a ∈ (unloadCaptured s c).engine.loadedHandles) : a ∈ s.engine.loadedHandles := by
  cases c with
  | none => exact h
  | some x => exact List.erase_subset _ _ h

theorem engineOk_unload (e : Engine) (h : Nat) (he : EngineOk e) : EngineOk (e.unload h) := by
  refine ⟨fun a ha => he.1 a (List.erase_subset _ _ ha), he.2.erase h⟩

theorem unloadCaptured_engineOk (s : AppState) (c : Option Nat) (he : EngineOk s.engine) :
    EngineOk (unloadCaptured s c).engine := by
  cases c with
  | none => exact he
  | some x => exact engineOk_unload _ _ he

theorem playPauseCore_sound (s : AppState) (c : Closure) :
    (playPauseCore s c).sound = s.sound := by
  cases hc : c.sound <;> simp only [playPauseCore, hc] <;> split <;> (try split) <;> rfl

theorem playPauseCore_isSoundLoaded (s : AppState) (c : Closure) :
    (playPauseCore s c).isSoundLoaded = s.isSoundLoaded := by
  cases hc : c.sound <;> simp only [playPauseCore, hc] <;> split <;> (try split) <;> rfl

theorem playPauseCore_currentTrackIndex (s : AppState) (c : Closure) :
    (playPauseCore s c).currentTrackIndex = s.currentTrackIndex := by
  cases hc : c.sound <;> simp only [playPauseCore, hc] <;> split <;> (try split) <;> rfl

theorem playPauseCore_songs (s : AppState) (c : Closure) :
    (playPauseCore s c).songs = s.songs := by
  cases hc : c.sound <;> simp only [playPauseCore, hc] <;> split <;> (try split) <;> rfl

theorem playPauseCore_pendingLoads (s : AppState) (c : Closure) :
    (playPauseCore s c).pendingLoads = s.pendingLoads := by
  cases hc : c.sound <;> simp only [playPauseCore, hc] <;> split <;> (try split) <;> rfl

theorem playPauseCore_loadedHandles (s : AppState) (c : Closure) :
    (playPauseCore s c).engine.loadedHandles = s.engine.loadedHandles := by
  cases hc : c.sound <;> simp only [playPauseCore, hc] <;> split <;> (try split) <;> rfl

theorem playPauseCore_fresh (s : AppState) (c : Closure) :
    (playPauseCore s c).engine.fresh = s.engine.fresh := by
  cases hc : c.sound <;> simp only [playPauseCore, hc] <;> split <;> (try split) <;> rfl

theorem playPauseCore_isPlaying_true (s : AppState) (c : Closure)
    (h : (playPauseCore s c).isPlaying = true) :
    s.isPlaying = true ∨ (c.isSoundLoaded = true ∧ c.sound.isSome = true) := by
  cases hc : c.sound with
  | none => simp only [playPauseCore, hc] at h; exact Or.inl h
  | some x =>
    simp only [playPauseCore, hc] at h
    by_cases hl : c.isSoundLoaded = true
    · exact Or.inr ⟨hl, by simp⟩
    · rw [if_neg hl] at h
      exact Or.inl h

theorem stopCore_sound (s : AppState) (c : Closure) : (stopCore s c).sound = s.sound := by
  cases hc : c.sound <;> simp only [stopCore, hc] <;> split <;> rfl

theorem stopCore_isSoundLoaded (s : AppState) (c : Closure) :
    (stopCore s c).isSoundLoaded = s.isSoundLoaded := by
  cases hc : c.sound <;> simp only [stopCore, hc] <;> split <;> rfl

theorem stopCore_currentTrackIndex (s : AppState) (c : Closure) :
    (stopCore s c).currentTrackIndex = s.currentTrackIndex := by
  cases hc : c.sound <;> simp only [stopCore, hc] <;> split <;> rfl

theorem stopCore_songs (s : AppState) (c : Closure) : (stopCore s c).songs = s.songs := by
  cases hc : c.sound <;> simp only [stopCore, hc] <;> split <;> rfl

theorem stopCore_pendingLoads (s : AppState) (c : Closure) :
    (stopCore s c).pendingLoads = s.pendingLoads := by
  cases hc : c.sound <;> simp only [stopCore, hc] <;> split <;> rfl

theorem stopCore_loadedHandles (s : AppState) (c : Closure) :
    (stopCore s c).engine.loadedHandles = s.engine.loadedHandles := by
  cases hc : c.sound <;> simp only [stopCore, hc] <;> split <;> rfl

theorem stopCore_fresh (s : AppState) (c : Closure) :
    (stopCore s c).engine.fresh = s.engine.fresh := by
  cases hc : c.sound <;> simp only [stopCore, hc] <;> split <;> rfl

theorem stopCore_isPlaying_true (s : AppState) (c : Closure)
    (h : (stopCore s c).isPlaying = true) : s.isPlaying = true := by
  cases hc : c.sound with
  | none => simp only [stopCore, hc] at h; exact h
  | some x =>
    simp only [stopCore, hc] at h
    split at h
    · split at h
      · exact absurd h (by simp)
      · exact h
    · exact h

theorem loadTrackInit_sound (s : AppState) (cs : Option Nat) (cl : List Song) (i : JSNum)
    (ap : Option Closure) : (loadTrackInit s cs cl i ap).1.sound = s.sound := by
  simp only [loadTrackInit]
  split
  · exact unloadCaptured_sound s cs
  · exact unloadCaptured_sound s cs

theorem loadTrackInit_isPlaying (s : AppState) (cs : Option Nat) (cl : List Song) (i : JSNum)
    (ap : Option Closure) : (loadTrackInit s cs cl i ap).1.isPlaying = s.isPlaying := by
  simp only [loadTrackInit]
  split
  · exact unloadCaptured_isPlaying s cs
  · exact unloadCaptured_isPlaying s cs

theorem loadTrackInit_isSoundLoaded (s : AppState) (cs : Option Nat) (cl : List Song) (i : JSNum)
    (ap : Option Closure) : (loadTrackInit s cs cl i ap).1.isSoundLoaded = s.isSoundLoaded := by
  simp only [loadTrackInit]
  split
  · exact unloadCaptured_isSoundLoaded s cs
  · exact unloadCaptured_isSoundLoaded s cs

theorem loadTrackInit_currentTrackIndex (s : AppState) (cs : Option Nat) (cl : List Song)
    (i : JSNum) (ap : Option Closure) :
    (loadTrackInit s cs cl i ap).1.currentTrackIndex = s.currentTrackIndex := by
  simp only [loadTrackInit]
  split
  · exact unloadCaptured_currentTrackIndex s cs
  · exact unloadCaptured_currentTrackIndex s cs

theorem loadTrackInit_songs (s : AppState) (cs : Option Nat) (cl : List Song) (i : JSNum)
    (ap : Option Closure) : (loadTrackInit s cs cl i ap).1.songs = s.songs := by
  simp only [loadTrackInit]
  split
  · exact unloadCaptured_songs s cs
  · exact unloadCaptured_songs s cs

theorem loadTrackInit_fresh (s : AppState) (cs : Option Nat) (cl : List Song) (i : JSNum)
    (ap : Option Closure) : (loadTrackInit s cs cl i ap).1.engine.fresh = s.engine.fresh := by
  simp only [loadTrackInit]
  split
  · exact unloadCaptured_fresh s cs
  · exact unloadCaptured_fresh s cs

theorem loadTrackInit_pending_mem (s : AppState) (cs : Option Nat) (cl : List Song) (i : JSNum)
    (ap : Option Closure) {p : PendingLoad}
    (h : p ∈ (loadTrackInit s cs cl i ap).1.pendingLoads) :
    p ∈ s.pendingLoads ∨ p = ⟨i, ap⟩ := by
  simp only [loadTrackInit] at h
  split at h
  · simp only [unloadCaptured_pendingLoads, List.mem_append, List.mem_singleton] at h
    exact h
  · rw [unloadCaptured_pendingLoads] at h
    exact Or.inl h

theorem loadTrackInit_loadedHandles_sub (s : AppState) (cs : Option Nat) (cl : List Song)
    (i : JSNum) (ap : Option Closure) {a : Nat}
    (h : a ∈ (loadTrackInit s cs cl i ap).1.engine.loadedHandles) :
    a ∈ s.engine.loadedHandles := by
  simp only [loadTrackInit] at h
  split at h
  · exact unloadCaptured_loadedHandles_sub s cs h
  · exact unloadCaptured_loadedHandles_sub s cs h

theorem loadTrackInit_engineOk (s : AppState) (cs : Option Nat) (cl : List Song) (i : JSNum)
    (ap : Option Closure) (he : EngineOk s.engine) :
    EngineOk (loadTrackInit s cs cl i ap).1.engine := by
  simp only [loadTrackInit]
  split
  · exact unloadCaptured_engineOk s cs he
  · exact unloadCaptured_engineOk s cs he

theorem setCurrentTrackIndex_sound (s : AppState) (v : JSNum) :
    (setCurrentTrackIndex s v).sound = s.sound := by
  unfold setCurrentTrackIndex; split <;> rfl

theorem setCurrentTrackIndex_isPlaying (s : AppState) (v : JSNum) :
    (setCurrentTrackIndex s v).isPlaying = s.isPlaying := by
  unfold setCurrentTrackIndex; split <;> rfl

theorem setCurrentTrackIndex_isSoundLoaded (s : AppState) (v : JSNum) :
    (setCurrentTrackIndex s v).isSoundLoaded = s.isSoundLoaded := by
  unfold setCurrentTrackIndex; split <;> rfl

theorem setCurrentTrackIndex_songs (s : AppState) (v : JSNum) :
    (setCurrentTrackIndex s v).songs = s.songs := by
  unfold setCurrentTrackIndex; split <;> rfl

theorem setCurrentTrackIndex_pendingLoads (s : AppState) (v : JSNum) :
    (setCurrentTrackIndex s v).pendingLoads = s.pendingLoads := by
  unfold setCurrentTrackIndex; split <;> rfl

theorem setCurrentTrackIndex_engine (s : AppState) (v : JSNum) :
    (setCurrentTrackIndex s v).engine = s.engine := by
  unfold setCurrentTrackIndex; split <;> rfl

theorem setCurrentTrackIndex_currentTrackIndex (s : AppState) (v : JSNum) :
    (setCurrentTrackIndex s v).currentTrackIndex = v := by
  unfold setCurrentTrackIndex
  split
  · rename_i h
    exact h.symm
  · rfl

theorem fetchComplete_eq (s : AppState) (l : List Song) :
    fetchComplete s l = s ∨ fetchComplete s l = { s with songs := l } := by
  unfold fetchComplete
  split
  · exact Or.inr rfl
  · exact Or.inl rfl

/-- Transfer of closure consistency along a state with the same sound and
loaded flag. -/
theorem closureOk_congr {s t : AppState} (c : Closure)
    (h1 : t.isSoundLoaded = s.isSoundLoaded) (h2 : t.sound = s.sound)
    (h : ClosureOk s c) : ClosureOk t c := by
  refine ⟨fun hc => ?_, fun hc => ?_⟩
  · rw [h1]; exact h.1 hc
  · rw [h2]; exact h.2 hc

theorem playPauseCore_inv (s : AppState) (c : Closure) (hI : Inv s) (hc : ClosureOk s c) :
    Inv (playPauseCore s c) := by
  refine ⟨?_, ?_, ?_, ?_⟩
  · intro hp
    rw [playPauseCore_isSoundLoaded, playPauseCore_sound]
    rcases playPauseCore_isPlaying_true s c hp with h | ⟨h1, h2⟩
    · exact hI.1 h
    · exact ⟨hc.1 h1, hc.2 h2⟩
  · rw [playPauseCore_isSoundLoaded, playPauseCore_sound]
    exact hI.2.1
  · intro p hp c' hap
    rw [playPauseCore_pendingLoads] at hp
    exact closureOk_congr c' (playPauseCore_isSoundLoaded s c) (playPauseCore_sound s c)
      (hI.2.2.1 p hp c' hap)
  · refine ⟨fun a ha => ?_, ?_⟩
    · rw [playPauseCore_loadedHandles] at ha
      rw [playPauseCore_fresh]
      exact hI.2.2.2.1 a ha
    · rw [playPauseCore_loadedHandles]
      exact hI.2.2.2.2

theorem stopCore_inv (s : AppState) (c : Closure) (hI : Inv s) : Inv (stopCore s c) := by
  refine ⟨?_, ?_, ?_, ?_⟩
  · intro hp
    rw [stopCore_isSoundLoaded, stopCore_sound]
    exact hI.1 (stopCore_isPlaying_true s c hp)
  · rw [stopCore_isSoundLoaded, stopCore_sound]
    exact hI.2.1
  · intro p hp c' hap
    rw [stopCore_pendingLoads] at hp
    exact closureOk_congr c' (stopCore_isSoundLoaded s c) (stopCore_sound s c)
      (hI.2.2.1 p hp c' hap)
  · refine ⟨fun a ha => ?_, ?_⟩
    · rw [stopCore_loadedHandles] at ha
      rw [stopCore_fresh]
      exact hI.2.2.2.1 a ha
    · rw [stopCore_loadedHandles]
      exact hI.2.2.2.2

theorem setCurrentTrackIndex_inv (s : AppState) (v : JSNum) (hI : Inv s) :
    Inv (setCurrentTrackIndex s v) := by
  unfold setCurrentTrackIndex
  split
  · exact hI
  · exact ⟨hI.1, hI.2.1, fun p hp c' hap => hI.2.2.1 p hp c' hap, hI.2.2.2⟩

theorem unloadCaptured_inv (s : AppState) (c : Option Nat) (hI : Inv s) :
    Inv (unloadCaptured s c) := by
  cases c with
  | none => exact hI
  | some h =>
    exact ⟨hI.1, hI.2.1, fun p hp c' hap => hI.2.2.1 p hp c' hap,
      engineOk_unload s.engine h hI.2.2.2⟩

theorem loadTrackInit_inv (s : AppState) (cs : Option Nat) (cl : List Song) (i : JSNum)
    (ap : Option Closure) (hI : Inv s) (hap : ∀ c, ap = some c → ClosureOk s c) :
    Inv (loadTrackInit s cs cl i ap).1 := by
  refine ⟨?_, ?_, ?_, loadTrackInit_engineOk s cs cl i ap hI.2.2.2⟩
  · intro hp
    rw [loadTrackInit_isPlaying] at hp
    rw [loadTrackInit_isSoundLoaded, loadTrackInit_sound]
    exact hI.1 hp
  · rw [loadTrackInit_isSoundLoaded, loadTrackInit_sound]
    exact hI.2.1
  · intro p hp c' hap'
    have htr : ∀ c'' : Closure, ClosureOk s c'' →
        ClosureOk (loadTrackInit s cs cl i ap).1 c'' := fun c'' h =>
      closureOk_congr c'' (loadTrackInit_isSoundLoaded s cs cl i ap)
        (loadTrackInit_sound s cs cl i ap) h
    rcases loadTrackInit_pending_mem s cs cl i ap hp with h | h
    · exact htr c' (hI.2.2.1 p h c' hap')
    · refine htr c' (hap c' ?_)
      rw [h] at hap'
      exact hap'

theorem pressMove_inv (s : AppState) (v : JSNum) (hI : Inv s) :
    Inv (if (loadTrackInit (setCurrentTrackIndex s v) s.sound s.songs v
              (some ⟨s.sound, s.isPlaying, s.isSoundLoaded⟩)).2
         then (loadTrackInit (setCurrentTrackIndex s v) s.sound s.songs v
              (some ⟨s.sound, s.isPlaying, s.isSoundLoaded⟩)).1
         else playPauseCore (loadTrackInit (setCurrentTrackIndex s v) s.sound s.songs v
              (some ⟨s.sound, s.isPlaying, s.isSoundLoaded⟩)).1
              ⟨s.sound, s.isPlaying, s.isSoundLoaded⟩) := by
  have hI1 : Inv (setCurrentTrackIndex s v) := setCurrentTrackIndex_inv s v hI
  have hc1 : ClosureOk (setCurrentTrackIndex s v) ⟨s.sound, s.isPlaying, s.isSoundLoaded⟩ := by
    constructor
    · intro h
      rw [setCurrentTrackIndex_isSoundLoaded]
      exact h
    · intro h
      rw [setCurrentTrackIndex_sound]
      exact h
  have hIr : Inv (loadTrackInit (setCurrentTrackIndex s v) s.sound s.songs v
      (some ⟨s.sound, s.isPlaying, s.isSoundLoaded⟩)).1 := by
    refine loadTrackInit_inv _ _ _ _ _ hI1 ?_
    intro c' hc'
    cases hc'
    exact hc1
  have hcr : ClosureOk (loadTrackInit (setCurrentTrackIndex s v) s.sound s.songs v
      (some ⟨s.sound, s.isPlaying, s.isSoundLoaded⟩)).1
      ⟨s.sound, s.isPlaying, s.isSoundLoaded⟩ := by
    constructor
    · intro h
      rw [loadTrackInit_isSoundLoaded, setCurrentTrackIndex_isSoundLoaded]
      exact h
    · intro h
      rw [loadTrackInit_sound, setCurrentTrackIndex_sound]
      exact h
  split
  · exact hIr
  · exact playPauseCore_inv _ _ hIr hcr

theorem pressNext_inv (s : AppState) (hI : Inv s) : Inv (pressNext s) :=
  pressMove_inv s (jsMod (jsAdd s.currentTrackIndex (.num 1)) (.num s.songs.length)) hI

theorem pressPrevious_inv (s : AppState) (hI : Inv s) : Inv (pressPrevious s) :=
  pressMove_inv s
    (jsMod (jsAdd (jsAdd s.currentTrackIndex (.num (-1))) (.num s.songs.length))
      (.num s.songs.length)) hI

theorem effectBody_inv (s : AppState) (hI : Inv s) : Inv (effectBody s) := by
  have h0 : Inv { s with pendingEffect := false } :=
    ⟨hI.1, hI.2.1, fun p hp c' hap => hI.2.2.1 p hp c' hap, hI.2.2.2⟩
  have h1 : Inv (unloadCaptured { s with pendingEffect := false } s.cleanupSound) :=
    unloadCaptured_inv _ _ h0
  have h2 : Inv (loadTrackInit (unloadCaptured { s with pendingEffect := false } s.cleanupSound)
      (unloadCaptured { s with pendingEffect := false } s.cleanupSound).sound
      (unloadCaptured { s with pendingEffect := false } s.cleanupSound).songs
      (unloadCaptured { s with pendingEffect := false } s.cleanupSound).currentTrackIndex
      none).1 :=
    loadTrackInit_inv _ _ _ _ _ h1 (fun c' hc' => by cases hc')
  exact ⟨h2.1, h2.2.1, fun p hp c' hap => h2.2.2.1 p hp c' hap, h2.2.2.2⟩

theorem effectFire_inv (s : AppState) (hI : Inv s) : Inv (effectFire s) := by
  unfold effectFire
  split
  · exact effectBody_inv s hI
  · exact hI

theorem completeLoad_inv (s : AppState) (k : Nat) (success : Bool) (hI : Inv s) :
    Inv (completeLoad s k success) := by
  unfold completeLoad
  cases hg : s.pendingLoads.get? k with
  | none => exact hI
  | some p =>
    simp only []
    have hmem : p ∈ s.pendingLoads := List.get?_mem hg
    have h0 : Inv { s with pendingLoads := s.pendingLoads.eraseIdx k } :=
      ⟨hI.1, hI.2.1,
        fun q hq c' hap => hI.2.2.1 q (List.eraseIdx_subset _ _ hq) c' hap, hI.2.2.2⟩
    cases success with
    | true =>
      set s0 : AppState := { s with pendingLoads := s.pendingLoads.eraseIdx k } with hs0
      have h1 : Inv { s0 with
          sound := some s0.engine.fresh,
          isSoundLoaded := true,
          engine := { s0.engine with
                        fresh := s0.engine.fresh + 1,
                        loadedHandles := s0.engine.fresh :: s0.engine.loadedHandles,
                        handleIdx := s0.engine.handleIdx ++ [(s0.engine.fresh, p.idx)] } } := by
        refine ⟨fun _ => ⟨rfl, rfl⟩, fun _ => rfl, fun q hq c' hap => ⟨fun _ => rfl, fun _ => rfl⟩, ?_, ?_⟩
        · intro a ha
          rcases List.mem_cons.mp ha with h | h
          · rw [h]; exact Nat.lt_succ_self _
          · exact Nat.lt_succ_of_lt (h0.2.2.2.1 a h)
        · refine List.nodup_cons.mpr ⟨fun hmem' => ?_, h0.2.2.2.2⟩
          exact absurd (h0.2.2.2.1 _ hmem') (Nat.lt_irrefl _)
      cases hap : p.autoplay with
      | none => exact h1
      | some c => exact playPauseCore_inv _ _ h1 ⟨fun _ => rfl, fun _ => rfl⟩
    | false =>
      cases hap : p.autoplay with
      | none => exact h0
      | some c =>
        refine playPauseCore_inv _ _ h0 ?_
        exact closureOk_congr c rfl rfl (hI.2.2.1 p hmem c hap)

theorem applyEv_inv (e : Ev) (s : AppState) (hI : Inv s) : Inv (applyEv e s) := by
  cases e with
  | fetchComplete l =>
    show Inv (fetchComplete s l)
    rcases fetchComplete_eq s l with h | h <;> rw [h]
    · exact hI
    · exact ⟨hI.1, hI.2.1, fun p hp c' hap => hI.2.2.1 p hp c' hap, hI.2.2.2⟩
  | pressPlayPause =>
    exact playPauseCore_inv s _ hI ⟨fun h => h, fun h => h⟩
  | pressStop => exact stopCore_inv s _ hI
  | pressNext => exact pressNext_inv s hI
  | pressPrevious => exact pressPrevious_inv s hI
  | selectSong i => exact setCurrentTrackIndex_inv s _ hI
  | effectFire => exact effectFire_inv s hI
  | loadSuccess k => exact completeLoad_inv s k true hI
  | loadFailure k => exact completeLoad_inv s k false hI

theorem inv_initState : Inv initState := by
  refine ⟨?_, ?_, ?_, ?_, ?_⟩
  · intro h
    cases h
  · intro h
    cases h
  · intro p hp
    exact absurd hp (List.not_mem_nil p)
  · intro a ha
    exact absurd ha (List.not_mem_nil a)
  · exact List.nodup_nil

theorem reachable_inv {s : AppState} (h : Reachable s) : Inv s := by
  induction h with
  | refl => exact inv_initState
  | tail e _ ih => exact applyEv_inv e _ ih

theorem reachable_foldl (evs : List Ev) (s : AppState) (h : Reachable s) :
    Reachable (evs.foldl (fun s e => applyEv e s) s) := by
  induction evs generalizing s with
  | nil => exact h
  | cons e t ih => exact ih _ (Reachable.tail e h)

theorem reachable_run (evs : List Ev) : Reachable (run evs) :=
  reachable_foldl evs initState Reachable.refl

theorem tmod_range {a n : Int} (ha : 0 ≤ a) (hn : 0 < n) :
    0 ≤ a.tmod n ∧ a.tmod n < n := by
  rw [Int.tmod_eq_emod ha (le_of_lt hn)]
  exact ⟨Int.emod_nonneg a (ne_of_gt hn), Int.emod_lt_of_pos a hn⟩

theorem pressMove_songs (s : AppState) (v : JSNum) :
    (if (loadTrackInit (setCurrentTrackIndex s v) s.sound s.songs v
          (some ⟨s.sound, s.isPlaying, s.isSoundLoaded⟩)).2
     then (loadTrackInit (setCurrentTrackIndex s v) s.sound s.songs v
          (some ⟨s.sound, s.isPlaying, s.isSoundLoaded⟩)).1
     else playPauseCore (loadTrackInit (setCurrentTrackIndex s v) s.sound s.songs v
          (some ⟨s.sound, s.isPlaying, s.isSoundLoaded⟩)).1
          ⟨s.sound, s.isPlaying, s.isSoundLoaded⟩).songs = s.songs := by
  split
  · rw [loadTrackInit_songs, setCurrentTrackIndex_songs]
  · rw [playPauseCore_songs, loadTrackInit_songs, setCurrentTrackIndex_songs]

theorem pressMove_currentTrackIndex (s : AppState) (v : JSNum) :
    (if (loadTrackInit (setCurrentTrackIndex s v) s.sound s.songs v
          (some ⟨s.sound, s.isPlaying, s.isSoundLoaded⟩)).2
     then (loadTrackInit (setCurrentTrackIndex s v) s.sound s.songs v
          (some ⟨s.sound, s.isPlaying, s.isSoundLoaded⟩)).1
     else playPauseCore (loadTrackInit (setCurrentTrackIndex s v) s.sound s.songs v
          (some ⟨s.sound, s.isPlaying, s.isSoundLoaded⟩)).1
          ⟨s.sound, s.isPlaying, s.isSoundLoaded⟩).currentTrackIndex = v := by
  split
  · rw [loadTrackInit_currentTrackIndex, setCurrentTrackIndex_currentTrackIndex]
  · rw [playPauseCore_currentTrackIndex, loadTrackInit_currentTrackIndex,
      setCurrentTrackIndex_currentTrackIndex]

theorem pressMove_isSoundLoaded (s : AppState) (v : JSNum) :
    (if (loadTrackInit (setCurrentTrackIndex s v) s.sound s.songs v
          (some ⟨s.sound, s.isPlaying, s.isSoundLoaded⟩)).2
     then (loadTrackInit (setCurrentTrackIndex s v) s.sound s.songs v
          (some ⟨s.sound, s.isPlaying, s.isSoundLoaded⟩)).1
     else playPauseCore (loadTrackInit (setCurrentTrackIndex s v) s.sound s.songs v
          (some ⟨s.sound, s.isPlaying, s.isSoundLoaded⟩)).1
          ⟨s.sound, s.isPlaying, s.isSoundLoaded⟩).isSoundLoaded = s.isSoundLoaded := by
  split
  · rw [loadTrackInit_isSoundLoaded, setCurrentTrackIndex_isSoundLoaded]
  · rw [playPauseCore_isSoundLoaded, loadTrackInit_isSoundLoaded,
      setCurrentTrackIndex_isSoundLoaded]

theorem pressNext_songs (s : AppState) : (pressNext s).songs = s.songs :=
  pressMove_songs s (jsMod (jsAdd s.currentTrackIndex (.num 1)) (.num s.songs.length))

theorem pressPrevious_songs (s : AppState) : (pressPrevious s).songs = s.songs :=
  pressMove_songs s
    (jsMod (jsAdd (jsAdd s.currentTrackIndex (.num (-1))) (.num s.songs.length))
      (.num s.songs.length))

theorem pressNext_currentTrackIndex (s : AppState) :
    (pressNext s).currentTrackIndex =
      jsMod (jsAdd s.currentTrackIndex (.num 1)) (.num s.songs.length) :=
  pressMove_currentTrackIndex s
    (jsMod (jsAdd s.currentTrackIndex (.num 1)) (.num s.songs.length))

theorem pressPrevious_currentTrackIndex (s : AppState) :
    (pressPrevious s).currentTrackIndex =
      jsMod (jsAdd (jsAdd s.currentTrackIndex (.num (-1))) (.num s.songs.length))
        (.num s.songs.length) :=
  pressMove_currentTrackIndex s
    (jsMod (jsAdd (jsAdd s.currentTrackIndex (.num (-1))) (.num s.songs.length))
      (.num s.songs.length))

theorem pressNext_isSoundLoaded (s : AppState) :
    (pressNext s).isSoundLoaded = s.isSoundLoaded :=
  pressMove_isSoundLoaded s (jsMod (jsAdd s.currentTrackIndex (.num 1)) (.num s.songs.length))

theorem pressPrevious_isSoundLoaded (s : AppState) :
    (pressPrevious s).isSoundLoaded = s.isSoundLoaded :=
  pressMove_isSoundLoaded s
    (jsMod (jsAdd (jsAdd s.currentTrackIndex (.num (-1))) (.num s.songs.length))
      (.num s.songs.length))

theorem pressNext_inRange (s : AppState) (hN : 0 < s.songs.length) (h : inRange s) :
    inRange (pressNext s) := by
  obtain ⟨c, hc, hc0, hcN⟩ := h
  have hNZ : (s.songs.length : Int) ≠ 0 := by
    exact_mod_cast Nat.pos_iff_ne_zero.mp hN
  have hNpos : (0 : Int) < s.songs.length := by exact_mod_cast hN
  have hb := tmod_range (a := c + 1) (n := s.songs.length) (by omega) hNpos
  refine ⟨(c + 1).tmod s.songs.length, ?_, hb.1, ?_⟩
  · rw [pressNext_currentTrackIndex, hc]
    simp [jsAdd, jsMod, hNZ]
  · rw [pressNext_songs]
    exact hb.2

theorem pressPrevious_inRange (s : AppState) (hN : 0 < s.songs.length) (h : inRange s) :
    inRange (pressPrevious s) := by
  obtain ⟨c, hc, hc0, hcN⟩ := h
  have hNZ : (s.songs.length : Int) ≠ 0 := by
    exact_mod_cast Nat.pos_iff_ne_zero.mp hN
  have hNpos : (0 : Int) < s.songs.length := by exact_mod_cast hN
  have hb := tmod_range (a := c + -1 + s.songs.length) (n := s.songs.length) (by omega) hNpos
  refine ⟨(c + -1 + s.songs.length).tmod s.songs.length, ?_, hb.1, ?_⟩
  · rw [pressPrevious_currentTrackIndex, hc]
    simp [jsAdd, jsMod, hNZ]
  · rw [pressPrevious_songs]
    exact hb.2

theorem applyMoves_inRange (ms : List Bool) (s : AppState) (hN : 0 < s.songs.length)
    (h : inRange s) : inRange (applyMoves s ms) := by
  induction ms generalizing s with
  | nil => exact h
  | cons m t ih =>
    cases m with
    | true =>
      have hs : (pressNext s).songs = s.songs := pressNext_songs s
      exact ih (pressNext s) (by rw [hs]; exact hN) (pressNext_inRange s hN h)
    | false =>
      have hs : (pressPrevious s).songs = s.songs := pressPrevious_songs s
      exact ih (pressPrevious s) (by rw [hs]; exact hN) (pressPrevious_inRange s hN h)

theorem pressNext_nan_of_empty (s : AppState) (h : s.songs = []) :
    (pressNext s).currentTrackIndex = JSNum.nan := by
  rw [pressNext_currentTrackIndex, h]
  cases s.currentTrackIndex <;> simp [jsAdd, jsMod]

theorem pressPrevious_nan_of_empty (s : AppState) (h : s.songs = []) :
    (pressPrevious s).currentTrackIndex = JSNum.nan := by
  rw [pressPrevious_currentTrackIndex, h]
  cases s.currentTrackIndex <;> simp [jsAdd, jsMod]

theorem playPauseCore_unloadEvents (s : AppState) (c : Closure) :
    (playPauseCore s c).engine.unloadEvents = s.engine.unloadEvents := by
  cases hc : c.sound <;> simp only [playPauseCore, hc] <;> split <;> (try split) <;> rfl

theorem loadTrackInit_loadedHandles_some (s : AppState) (cl : List Song) (i : JSNum)
    (ap : Option Closure) (h : Nat) :
    (loadTrackInit s (some h) cl i ap).1.engine.loadedHandles =
      s.engine.loadedHandles.erase h := by
  simp only [loadTrackInit, unloadCaptured, Engine.unload]
  split <;> rfl

theorem loadTrackInit_unloadEvents_some (s : AppState) (cl : List Song) (i : JSNum)
    (ap : Option Closure) (h : Nat) :
    (loadTrackInit s (some h) cl i ap).1.engine.unloadEvents =
      s.engine.unloadEvents ++ [h] := by
  simp only [loadTrackInit, unloadCaptured, Engine.unload]
  split <;> rfl

theorem pressMove_engine (s : AppState) (v : JSNum) (h : Nat) (hs : s.sound = some h) :
    (if (loadTrackInit (setCurrentTrackIndex s v) s.sound s.songs v
          (some ⟨s.sound, s.isPlaying, s.isSoundLoaded⟩)).2
     then (loadTrackInit (setCurrentTrackIndex s v) s.sound s.songs v
          (some ⟨s.sound, s.isPlaying, s.isSoundLoaded⟩)).1
     else playPauseCore (loadTrackInit (setCurrentTrackIndex s v) s.sound s.songs v
          (some ⟨s.sound, s.isPlaying, s.isSoundLoaded⟩)).1
          ⟨s.sound, s.isPlaying, s.isSoundLoaded⟩).engine.loadedHandles =
        s.engine.loadedHandles.erase h ∧
    (if (loadTrackInit (setCurrentTrackIndex s v) s.sound s.songs v
          (some ⟨s.sound, s.isPlaying, s.isSoundLoaded⟩)).2
     then (loadTrackInit (setCurrentTrackIndex s v) s.sound s.songs v
          (some ⟨s.sound, s.isPlaying, s.isSoundLoaded⟩)).1
     else playPauseCore (loadTrackInit (setCurrentTrackIndex s v) s.sound s.songs v
          (some ⟨s.sound, s.isPlaying, s.isSoundLoaded⟩)).1
          ⟨s.sound, s.isPlaying, s.isSoundLoaded⟩).engine.unloadEvents =
        s.engine.unloadEvents ++ [h] := by
  rw [hs]
  have hl := loadTrackInit_loadedHandles_some (setCurrentTrackIndex s v) s.songs v
    (some ⟨some h, s.isPlaying, s.isSoundLoaded⟩) h
  have hu := loadTrackInit_unloadEvents_some (setCurrentTrackIndex s v) s.songs v
    (some ⟨some h, s.isPlaying, s.isSoundLoaded⟩) h
  rw [setCurrentTrackIndex_engine] at hl hu
  constructor
  · split
    · exact hl
    · rw [playPauseCore_loadedHandles]
      exact hl
  · split
    · exact hu
    · rw [playPauseCore_unloadEvents]
      exact hu

theorem effectBody_unloads (s : AppState) (h : Nat) (hs : s.sound = some h)
    (hnd : s.engine.loadedHandles.Nodup) :
    h ∉ (effectBody s).engine.loadedHandles ∧ h ∈ (effectBody s).engine.unloadEvents := by
  have hsx : (unloadCaptured { s with pendingEffect := false } s.cleanupSound).sound = some h := by
    rw [unloadCaptured_sound]
    exact hs
  constructor
  · show h ∉ (loadTrackInit (unloadCaptured { s with pendingEffect := false } s.cleanupSound)
      (unloadCaptured { s with pendingEffect := false } s.cleanupSound).sound
      (unloadCaptured { s with pendingEffect := false } s.cleanupSound).songs
      (unloadCaptured { s with pendingEffect := false } s.cleanupSound).currentTrackIndex
      none).1.engine.loadedHandles
    rw [hsx, loadTrackInit_loadedHandles_some]
    have hnd2 : (unloadCaptured { s with pendingEffect := false }
        s.cleanupSound).engine.loadedHandles.Nodup := by
      cases hc : s.cleanupSound with
      | none => exact hnd
      | some y =>
        show (({ s with pendingEffect := false } : AppState).engine.unload y).loadedHandles.Nodup
        exact hnd.erase y
    exact hnd2.not_mem_erase
  · show h ∈ (loadTrackInit (unloadCaptured { s with pendingEffect := false } s.cleanupSound)
      (unloadCaptured { s with pendingEffect := false } s.cleanupSound).sound
      (unloadCaptured { s with pendingEffect := false } s.cleanupSound).songs
      (unloadCaptured { s with pendingEffect := false } s.cleanupSound).currentTrackIndex
      none).1.engine.unloadEvents
    rw [hsx, loadTrackInit_unloadEvents_some]
    exact List.mem_append_right _ (List.mem_singleton.mpr rfl)

theorem effectFire_unloads (s : AppState) (hpe : s.pendingEffect = true) (h : Nat)
    (hs : s.sound = some h) (hnd : s.engine.loadedHandles.Nodup) :
    h ∉ (effectFire s).engine.loadedHandles ∧ h ∈ (effectFire s).engine.unloadEvents := by
  unfold effectFire
  rw [if_pos hpe]
  exact effectBody_unloads s h hs hnd

theorem effectBody_isSoundLoaded (s : AppState) :
    (effectBody s).isSoundLoaded = s.isSoundLoaded := by
  show (loadTrackInit (unloadCaptured { s with pendingEffect := false } s.cleanupSound)
      (unloadCaptured { s with pendingEffect := false } s.cleanupSound).sound
      (unloadCaptured { s with pendingEffect := false } s.cleanupSound).songs
      (unloadCaptured { s with pendingEffect := false } s.cleanupSound).currentTrackIndex
      none).1.isSoundLoaded = s.isSoundLoaded
  rw [loadTrackInit_isSoundLoaded, unloadCaptured_isSoundLoaded]

theorem effectFire_isSoundLoaded (s : AppState) :
    (effectFire s).isSoundLoaded = s.isSoundLoaded := by
  unfold effectFire
  split
  · exact effectBody_isSoundLoaded s
  · rfl

theorem completeLoad_isSoundLoaded (s : AppState) (k : Nat) (success : Bool)
    (hl : s.isSoundLoaded = true) : (completeLoad s k success).isSoundLoaded = true := by
  unfold completeLoad
  cases hg : s.pendingLoads.get? k with
  | none => exact hl
  | some p =>
    simp only []
    cases success with
    | true =>
      cases hap : p.autoplay with
      | none => rfl
      | some c =>
        rw [playPauseCore_isSoundLoaded]
        rfl
    | false =>
      cases hap : p.autoplay with
      | none => exact hl
      | some c =>
        rw [playPauseCore_isSoundLoaded]
        exact hl

theorem fetchComplete_isSoundLoaded (s : AppState) (l : List Song) :
    (fetchComplete s l).isSoundLoaded = s.isSoundLoaded := by
  rcases fetchComplete_eq s l with h | h <;> rw [h]

theorem completeLoad_failure_eq (s : AppState) (k : Nat) (p : PendingLoad)
    (hp : s.pendingLoads.get? k = some p) :
    completeLoad s k false =
      (match p.autoplay with
       | some c => playPauseCore { s with pendingLoads := s.pendingLoads.eraseIdx k } c
       | none => { s with pendingLoads := s.pendingLoads.eraseIdx k }) := by
  unfold completeLoad
  rw [hp]
  rfl

theorem stopCore_isPlaying_stops (s : AppState) (c : Closure) (h : Nat)
    (hcs : c.sound = some h) (hld : c.isSoundLoaded = true)
    (hmem : h ∈ s.engine.loadedHandles) : (stopCore s c).isPlaying = false := by
  simp only [stopCore, hcs, hld, if_true]
  simp [hmem]

/-- C1: the code has no stale-load guard.  In the traced run, track 0 is
selected and, before its load resolves, track 1 is selected; the load of
track 1 resolves first and the stale completion of the track 0 load is then
processed.  The completion is applied unconditionally: the final state has
currentTrackIndex 1 but the held sound is handle 2, which the engine created
for track 0 (see handleIdx), so the earlier load silently overrides the later
selection, contradicting the claim. -/
theorem claim1_stale_load_overwrites :
    (run traceC1).currentTrackIndex = JSNum.num 1 ∧
    (run traceC1).sound = some 2 ∧
    (run traceC1).engine.handleIdx =
      [(0, JSNum.num 2), (1, JSNum.num 1), (2, JSNum.num 0)] ∧
    (run traceC1).pendingLoads = [] := by
  decide

/-- C2: nextTrack does not ensure playback of the new track.  In the traced
run the player is playing handle 1 when Next is pressed; the press unloads
handle 1 and, after the new load resolves as handle 2, runs the playPause
toggle with the stale closure: since the captured isPlaying is true it calls
pauseAsync on the old handle 1 (which rejects: it is unloaded) and never
calls play on handle 2.  The engine log shows play was only ever called on
handle 1 and pause was attempted on handle 1, refuting the claim that
next always starts playback of the newly loaded sound. -/
theorem claim2_autoplay_is_stale_toggle :
    (run traceC2).isPlaying = true ∧
    (run traceC2).sound = some 2 ∧
    (run traceC2).engine.handleIdx =
      [(0, JSNum.num 1), (1, JSNum.num 1), (2, JSNum.num 2)] ∧
    (run traceC2).engine.playEvents = [1] ∧
    (run traceC2).engine.pauseEvents = [1] := by
  decide

/-- C3 counterexample: with an empty playlist (N = 0), pressing Next is not a
no-op: JavaScript (0 + 1) % 0 is NaN, so the current index becomes NaN and
the state changes. -/
theorem claim3_counterexample :
    initState.songs = [] ∧
    (applyEv Ev.pressNext initState).currentTrackIndex = JSNum.nan ∧
    applyEv Ev.pressNext initState ≠ initState := by
  decide

/-- C3 amended: for N greater than 0 and an in-range current index, any
sequence of next / previous presses keeps the index in [0, N) (the truncated
remainder of (c+1) respectively (c-1+N) by N); for N = 0 the computed index
is NaN, so the call changes the index to NaN instead of being a no-op. -/
theorem claim3_wraparound :
    (∀ (s : AppState) (ms : List Bool), 0 < s.songs.length → inRange s →
      inRange (applyMoves s ms)) ∧
    (∀ s : AppState, s.songs = [] →
      (pressNext s).currentTrackIndex = JSNum.nan ∧
      (pressPrevious s).currentTrackIndex = JSNum.nan) := by
  constructor
  · intro s ms hN h
    exact applyMoves_inRange ms s hN h
  · intro s h
    exact ⟨pressNext_nan_of_empty s h, pressPrevious_nan_of_empty s h⟩

/-- C3 witness: the wrap-around theorem applied to the freshly seeded five
track playlist and the press sequence Next, Next, Previous. -/
theorem claim3_wraparound_witness : inRange (applyMoves (run traceC3) [true, true, false]) :=
  claim3_wraparound.1 (run traceC3) [true, true, false] (by decide)
    ⟨0, by decide, by decide, by decide⟩

/-- C4: on every reachable state the playing flag implies the loaded flag
(and a held sound handle): this is part of the inductive invariant. -/
theorem claim4_playing_implies_loaded (s : AppState) (hr : Reachable s)
    (hp : s.isPlaying = true) : s.isSoundLoaded = true ∧ s.sound.isSome = true :=
  (reachable_inv hr).1 hp

/-- C4 witness: the invariant evaluated on a concrete reachable playing
state. -/
theorem claim4_witness :
    (run traceC4).isSoundLoaded = true ∧ (run traceC4).sound.isSome = true :=
  claim4_playing_implies_loaded (run traceC4) (reachable_run traceC4) (by decide)

/-- C5 counterexample: in the traced run a load of track 0 is in flight while
an earlier load had already succeeded; when the in-flight load fails, the
loaded flag stays true (no revert to a not-loaded state) and the held sound
is still the old handle, which is not even loaded in the engine any more. -/
theorem claim5_counterexample :
    (run traceC5pre).pendingLoads = [⟨JSNum.num 0, none⟩] ∧
    (run traceC5pre).isSoundLoaded = true ∧
    (applyEv (Ev.loadFailure 0) (run traceC5pre)).isSoundLoaded = true ∧
    (applyEv (Ev.loadFailure 0) (run traceC5pre)).sound = some 0 ∧
    0 ∉ (applyEv (Ev.loadFailure 0) (run traceC5pre)).engine.loadedHandles := by
  decide

/-- C5 amended: a load failure is caught and logged, the controller does not
crash, and the state is left exactly as before the completion: sound handle,
loaded flag, current index, playlist and loaded engine units are unchanged
and the pending load is dropped; for a selection-initiated load (no autoplay
continuation) the failure changes nothing but the pending list.  In
particular the loaded flag is not reverted to false. -/
theorem claim5_failure_leaves_state (s : AppState) (k : Nat) (p : PendingLoad)
    (hp : s.pendingLoads.get? k = some p) :
    (completeLoad s k false).sound = s.sound ∧
    (completeLoad s k false).isSoundLoaded = s.isSoundLoaded ∧
    (completeLoad s k false).currentTrackIndex = s.currentTrackIndex ∧
    (completeLoad s k false).songs = s.songs ∧
    (completeLoad s k false).engine.loadedHandles = s.engine.loadedHandles ∧
    (completeLoad s k false).pendingLoads = s.pendingLoads.eraseIdx k ∧
    (p.autoplay = none →
      completeLoad s k false = { s with pendingLoads := s.pendingLoads.eraseIdx k }) := by
  rw [completeLoad_failure_eq s k p hp]
  cases hap : p.autoplay with
  | none => exact ⟨rfl, rfl, rfl, rfl, rfl, rfl, fun _ => rfl⟩
  | some c =>
    refine ⟨?_, ?_, ?_, ?_, ?_, ?_, ?_⟩
    · show (playPauseCore { s with pendingLoads := s.pendingLoads.eraseIdx k } c).sound = s.sound
      rw [playPauseCore_sound]
    · show (playPauseCore { s with pendingLoads := s.pendingLoads.eraseIdx k }
          c).isSoundLoaded = s.isSoundLoaded
      rw [playPauseCore_isSoundLoaded]
    · show (playPauseCore { s with pendingLoads := s.pendingLoads.eraseIdx k }
          c).currentTrackIndex = s.currentTrackIndex
      rw [playPauseCore_currentTrackIndex]
    · show (playPauseCore { s with pendingLoads := s.pendingLoads.eraseIdx k }
          c).songs = s.songs
      rw [playPauseCore_songs]
    · show (playPauseCore { s with pendingLoads := s.pendingLoads.eraseIdx k }
          c).engine.loadedHandles = s.engine.loadedHandles
      rw [playPauseCore_loadedHandles]
    · show (playPauseCore { s with pendingLoads := s.pendingLoads.eraseIdx k }
          c).pendingLoads = s.pendingLoads.eraseIdx k
      rw [playPauseCore_pendingLoads]
    · intro hnone
      exact Option.noConfusion hnone

/-- C5 witness: the failure frame theorem evaluated at the concrete state of
the counterexample trace with its single in-flight selection load. -/
theorem claim5_witness :
    (completeLoad (run traceC5pre) 0 false).sound = (run traceC5pre).sound ∧
    (completeLoad (run traceC5pre) 0 false).isSoundLoaded = (run traceC5pre).isSoundLoaded ∧
    (completeLoad (run traceC5pre) 0 false).currentTrackIndex =
      (run traceC5pre).currentTrackIndex ∧
    (completeLoad (run traceC5pre) 0 false).songs = (run traceC5pre).songs ∧
    (completeLoad (run traceC5pre) 0 false).engine.loadedHandles =
      (run traceC5pre).engine.loadedHandles ∧
    (completeLoad (run traceC5pre) 0 false).pendingLoads =
      (run traceC5pre).pendingLoads.eraseIdx 0 ∧
    ((⟨JSNum.num 0, none⟩ : PendingLoad).autoplay = none →
      completeLoad (run traceC5pre) 0 false =
        { run traceC5pre with pendingLoads := (run traceC5pre).pendingLoads.eraseIdx 0 }) :=
  claim5_failure_leaves_state (run traceC5pre) 0 ⟨JSNum.num 0, none⟩ (by decide)

/-- C6 counterexample: two selections are issued while the first load is
still in flight; both loads resolve, and afterwards two engine units are
loaded at the same time while no unload was ever called, refuting the
at-most-one-loaded-unit invariant. -/
theorem claim6_counterexample :
    (run traceC6).engine.loadedHandles = [1, 0] ∧
    (run traceC6).engine.unloadEvents = [] ∧
    (run traceC6).sound = some 1 := by
  decide

/-- C6 amended: what the code does guarantee is the initiation-time unload:
when a handle is held, pressing Next or Previous unloads exactly that handle
before the new engine load starts, and an index-change effect run unloads it
too; but the at-most-one-unit property itself fails, because completions of
overlapping or duplicated loads produce further loaded units that are never
released (the counterexample). -/
theorem claim6_unload_on_initiation (s : AppState) (h : Nat) (hr : Reachable s)
    (hs : s.sound = some h) :
    (h ∉ (applyEv Ev.pressNext s).engine.loadedHandles ∧
      (applyEv Ev.pressNext s).engine.unloadEvents = s.engine.unloadEvents ++ [h]) ∧
    (h ∉ (applyEv Ev.pressPrevious s).engine.loadedHandles ∧
      (applyEv Ev.pressPrevious s).engine.unloadEvents = s.engine.unloadEvents ++ [h]) ∧
    (s.pendingEffect = true →
      h ∉ (applyEv Ev.effectFire s).engine.loadedHandles ∧
      h ∈ (applyEv Ev.effectFire s).engine.unloadEvents) := by
  have hnd : s.engine.loadedHandles.Nodup := (reachable_inv hr).2.2.2.2
  have hpn := pressMove_engine s
    (jsMod (jsAdd s.currentTrackIndex (.num 1)) (.num s.songs.length)) h hs
  have hpp := pressMove_engine s
    (jsMod (jsAdd (jsAdd s.currentTrackIndex (.num (-1))) (.num s.songs.length))
      (.num s.songs.length)) h hs
  refine ⟨⟨?_, hpn.2⟩, ⟨?_, hpp.2⟩, fun hpe => effectFire_unloads s hpe h hs hnd⟩
  · have h1 : (pressNext s).engine.loadedHandles = s.engine.loadedHandles.erase h := hpn.1
    show h ∉ (pressNext s).engine.loadedHandles
    rw [h1]
    exact hnd.not_mem_erase
  · have h1 : (pressPrevious s).engine.loadedHandles = s.engine.loadedHandles.erase h := hpp.1
    show h ∉ (pressPrevious s).engine.loadedHandles
    rw [h1]
    exact hnd.not_mem_erase

/-- C6 witness: the initiation-unload theorem evaluated at a concrete
reachable state holding handle 0 with a further selection pending. -/
theorem claim6_witness :
    (0 ∉ (applyEv Ev.pressNext (run traceC6w)).engine.loadedHandles ∧
      (applyEv Ev.pressNext (run traceC6w)).engine.unloadEvents =
        (run traceC6w).engine.unloadEvents ++ [0]) ∧
    (0 ∉ (applyEv Ev.pressPrevious (run traceC6w)).engine.loadedHandles ∧
      (applyEv Ev.pressPrevious (run traceC6w)).engine.unloadEvents =
        (run traceC6w).engine.unloadEvents ++ [0]) ∧
    ((run traceC6w).pendingEffect = true →
      0 ∉ (applyEv Ev.effectFire (run traceC6w)).engine.loadedHandles ∧
      0 ∈ (applyEv Ev.effectFire (run traceC6w)).engine.unloadEvents) :=
  claim6_unload_on_initiation (run traceC6w) 0 (reachable_run traceC6w) (by decide)

/-- C7 counterexample: after mounting (which runs the index effect on the
still empty playlist) and the arrival of the five seeded songs, index 0 is
selected but nothing was loaded: the mount-time loadTrack(0) threw on the
empty array before any engine call, no load is initiated when the playlist
becomes non-empty, and the state is not-loaded (not the claimed
loaded-not-playing). -/
theorem claim7_counterexample :
    (run traceC7).currentTrackIndex = JSNum.num 0 ∧
    (run traceC7).songs.length = 5 ∧
    (run traceC7).isSoundLoaded = false ∧
    (run traceC7).isPlaying = false ∧
    (run traceC7).engine.loadEvents = [] ∧
    (run traceC7).pendingLoads = [] := by
  decide

/-- C7 amended: for every playlist delivered at startup, the controller has
index 0 selected, never starts playing, and ends up not loaded with no
engine load call at all: the automatic load attempt happens at mount, before
the catalog listing resolves, fails on the empty array, and is not retried
when the playlist becomes non-empty. -/
theorem claim7_no_auto_load (l : List Song) :
    (run [Ev.effectFire, Ev.fetchComplete l]).currentTrackIndex = JSNum.num 0 ∧
    (run [Ev.effectFire, Ev.fetchComplete l]).songs = l ∧
    (run [Ev.effectFire, Ev.fetchComplete l]).isSoundLoaded = false ∧
    (run [Ev.effectFire, Ev.fetchComplete l]).isPlaying = false ∧
    (run [Ev.effectFire, Ev.fetchComplete l]).engine.loadEvents = [] ∧
    (run [Ev.effectFire, Ev.fetchComplete l]).pendingLoads = [] := by
  have h2 : run [Ev.effectFire, Ev.fetchComplete l] =
      { initState with pendingEffect := false, songs := l } := rfl
  rw [h2]
  exact ⟨rfl, rfl, rfl, rfl, rfl, rfl⟩

/-- C8: on every reachable state whose held sound is a loaded engine unit,
stop sets the playing flag to false regardless of the prior play or pause
state and unloads nothing (sound, loaded flag and loaded engine units are
unchanged); when no sound is held or the loaded flag is unset, stop is a
strict no-op (it only warns). -/
theorem claim8_stop_behavior (s : AppState) (hr : Reachable s) :
    (∀ h : Nat, s.sound = some h → h ∈ s.engine.loadedHandles →
      (applyEv Ev.pressStop s).isPlaying = false ∧
      (applyEv Ev.pressStop s).sound = s.sound ∧
      (applyEv Ev.pressStop s).isSoundLoaded = s.isSoundLoaded ∧
      (applyEv Ev.pressStop s).engine.loadedHandles = s.engine.loadedHandles) ∧
    ((s.sound = none ∨ s.isSoundLoaded = false) → applyEv Ev.pressStop s = s) := by
  constructor
  · intro h hs hmem
    have hld : s.isSoundLoaded = true := (reachable_inv hr).2.1 (by rw [hs]; rfl)
    exact ⟨stopCore_isPlaying_stops s ⟨s.sound, s.isPlaying, s.isSoundLoaded⟩ h hs hld hmem,
      stopCore_sound s _, stopCore_isSoundLoaded s _, stopCore_loadedHandles s _⟩
  · intro hcase
    show stopCore s ⟨s.sound, s.isPlaying, s.isSoundLoaded⟩ = s
    rcases hcase with hnone | hnl
    · simp only [stopCore, hnone]
    · cases hso : s.sound with
      | none => simp only [stopCore, hso]
      | some x =>
        simp only [stopCore, hso, hnl]
        simp

/-- C8 witness: the stop theorem evaluated at a concrete reachable playing
state whose handle 1 is loaded. -/
theorem claim8_witness :
    (applyEv Ev.pressStop (run traceC8)).isPlaying = false ∧
    (applyEv Ev.pressStop (run traceC8)).sound = (run traceC8).sound ∧
    (applyEv Ev.pressStop (run traceC8)).isSoundLoaded = (run traceC8).isSoundLoaded ∧
    (applyEv Ev.pressStop (run traceC8)).engine.loadedHandles =
      (run traceC8).engine.loadedHandles :=
  (claim8_stop_behavior (run traceC8) (reachable_run traceC8)).1 1 (by decide) (by decide)

/-- C9: selecting the already current track is a strict no-op: the list row
press calls setCurrentTrackIndex with the unchanged value, React bails out
and the index effect does not re-run, so there is no new engine load call and
no state change at all. -/
theorem claim9_select_current_noop (s : AppState) (i : Nat)
    (hcur : s.currentTrackIndex = JSNum.num (i : Int)) (hld : s.isSoundLoaded = true) :
    applyEv (Ev.selectSong i) s = s := by
  show setCurrentTrackIndex s (.num (i : Int)) = s
  unfold setCurrentTrackIndex
  rw [if_pos hcur.symm]

/-- C9 witness: selecting track 1 again in a reachable state already at
track 1 with its sound loaded. -/
theorem claim9_witness : applyEv (Ev.selectSong 1) (run traceC9) = run traceC9 :=
  claim9_select_current_noop (run traceC9) 1 (by decide) (by decide)

/-- C10: the loaded flag is monotone: once isSoundLoaded is true no event of
the component ever resets it (not a track switch, not a failed load, not
stop); consequently the transport guards only reject commands before the
first successful load, and there is a reachable state whose held sound is no
longer loaded in the engine while the flag is still true, where playPause
passes the guard and issues pauseAsync against the unloaded handle. -/
theorem claim10_loaded_flag_monotone :
    (∀ (s : AppState) (e : Ev), s.isSoundLoaded = true →
      (applyEv e s).isSoundLoaded = true) ∧
    (Reachable (run traceC10) ∧
      (run traceC10).isSoundLoaded = true ∧
      (run traceC10).sound = some 1 ∧
      1 ∉ (run traceC10).engine.loadedHandles ∧
      (applyEv Ev.pressPlayPause (run traceC10)).engine.pauseEvents =
        (run traceC10).engine.pauseEvents ++ [1] ∧
      (applyEv Ev.pressPlayPause (run traceC10)).isPlaying = (run traceC10).isPlaying) := by
  constructor
  · intro s e hl
    cases e with
    | fetchComplete l => exact (fetchComplete_isSoundLoaded s l).trans hl
    | pressPlayPause => exact (playPauseCore_isSoundLoaded s _).trans hl
    | pressStop => exact (stopCore_isSoundLoaded s _).trans hl
    | pressNext => exact (pressNext_isSoundLoaded s).trans hl
    | pressPrevious => exact (pressPrevious_isSoundLoaded s).trans hl
    | selectSong i => exact (setCurrentTrackIndex_isSoundLoaded s _).trans hl
    | effectFire => exact (effectFire_isSoundLoaded s).trans hl
    | loadSuccess k => exact completeLoad_isSoundLoaded s k true hl
    | loadFailure k => exact completeLoad_isSoundLoaded s k false hl
  · exact ⟨reachable_run traceC10, by decide, by decide, by decide, by decide, by decide⟩

/-- C10 witness: monotonicity applied at a concrete loaded state and the stop
press. -/
theorem claim10_witness : (applyEv Ev.pressStop (run traceC10)).isSoundLoaded = true :=
  claim10_loaded_flag_monotone.1 (run traceC10) Ev.pressStop (by decide)

end MusicApp
